import Mathlib

/-!
# Verification of the image-processing cache server

Shallow embedding of the repository's JavaScript sources:
- `src/server.js` (two variants: the main Express handler and the serverless
  variant with degradation/proxy fallback),
- `src/unnamed/part_000` and `src/unnamed/part_002` (the tenant/"merchantId"
  variants with a per-merchant directory and a `metadata.json` index),
- `src/unnamed/part_001` and `src/unnamed/part_003` (serverless variants).

Byte buffers are modelled as `List Nat`; JavaScript's `Map` is modelled as an
association list in insertion order (`Map.set` of a present key updates in
place, of a fresh key appends at the end; `Map.keys().next().value` is the
head); MD5 is modelled by its preimage string, so key equality "up to hash
collision" is exactly equality of the modelled keys.
-/

namespace NodeImage

/-- Image byte buffers (`Buffer` contents) as lists of bytes. -/
abbrev Bytes := List Nat

/-- A JavaScript number-or-null value as it flows through the handlers:
`null`, `NaN` (result of a failed `parseInt`), or an integer. -/
inductive JsVal where
  | null : JsVal
  | nan : JsVal
  | int : Int → JsVal
deriving DecidableEq, Repr

/-- Template-literal stringification of a `JsVal` (`` `${x}` `` in JS). -/
def jsValStr : JsVal → String
  | .null => "null"
  | .nan => "NaN"
  | .int n => toString n

/-- Accumulate the decimal value of a leading run of digit characters. -/
def digitsVal : List Char → Nat → Nat
  | [], acc => acc
  | c :: cs, acc => if c.isDigit then digitsVal cs (acc * 10 + (c.toNat - 48)) else acc

/-- JavaScript `parseInt` on a string, `none` meaning `NaN`:
an optional minus sign followed by at least one digit; parsing stops at the
first non-digit (leading whitespace and an explicit plus sign are not modelled,
no request in the claims uses them). -/
def parseIntJs (s : String) : Option Int :=
  match s.data with
  | '-' :: c :: cs => if c.isDigit then some (-(digitsVal (c :: cs) 0 : Int)) else none
  | c :: cs => if c.isDigit then some ((digitsVal (c :: cs) 0 : Int)) else none
  | [] => none

/-- `parseInt` producing a `JsVal` (`NaN` on failure). -/
def parseIntVal (s : String) : JsVal :=
  match parseIntJs s with
  | some n => .int n
  | none => .nan

/-- Stringification of a possibly-`undefined` query parameter inside a
template literal (`` `${width}` `` gives `"undefined"` when absent). -/
def jsTemplateOpt : Option String → String
  | none => "undefined"
  | some s => s

/-- `getCacheKey` (src/server.js lines 30-31, part_001/part_003 lines 52-53):
`crypto.createHash('md5').update(`${url}-${width}-${quality}-${format}`)`.
MD5 is modelled by its preimage, so equality of modelled keys is key equality
up to hash collision. -/
def getCacheKey (url width quality format : String) : String :=
  url ++ "-" ++ width ++ "-" ++ quality ++ "-" ++ format

/-- `generateFileName` (part_000/part_002 lines 15-18): the MD5 hex of
`` `${url}-${width}-${quality}-${format}` `` plus `.${format || 'webp'}`.
`width`/`quality` arrive as raw query strings (possibly `undefined`);
`merchantId` is a parameter of the JS function but is not used in the body. -/
def generateFileName (url : String) (width quality : Option String)
    (format merchantId : String) : String :=
  getCacheKey url (jsTemplateOpt width) (jsTemplateOpt quality) format
    ++ "." ++ (if format = "" then "webp" else format)

/-! ## The JavaScript `Map`, in insertion order -/

section AssocMap

variable {κ : Type} {α : Type} [DecidableEq κ]

/-- `Map.get` / `Map.has`: first (unique) binding of a key. -/
def mapGet : List (κ × α) → κ → Option α
  | [], _ => none
  | (k', v') :: rest, k => if k' = k then some v' else mapGet rest k

/-- `Map.set`: update in place if the key is present (keeping its insertion
position), otherwise append at the end. -/
def mapSet : List (κ × α) → κ → α → List (κ × α)
  | [], k, v => [(k, v)]
  | (k', v') :: rest, k, v =>
      if k' = k then (k, v) :: rest else (k', v') :: mapSet rest k v

/-- `Map.delete`: remove the binding of a key. -/
def mapDelete : List (κ × α) → κ → List (κ × α)
  | [], _ => []
  | (k', v') :: rest, k => if k' = k then rest else (k', v') :: mapDelete rest k

end AssocMap

/-- `const CACHE_SIZE = 100` (src/server.js line 27). -/
def CACHE_SIZE : Nat := 100

/-- The miss-path cache population (src/server.js lines 160-165):
`imageCache.set(cacheKey, v); if (imageCache.size > CACHE_SIZE) {
  const firstKey = imageCache.keys().next().value; imageCache.delete(firstKey); }` -/
def missInsert {κ α : Type} [DecidableEq κ] (cap : Nat) (c : List (κ × α))
    (k : κ) (v : α) : List (κ × α) :=
  let c1 := mapSet c k v
  if c1.length > cap then
    match c1 with
    | [] => c1
    | (k0, _) :: _ => mapDelete c1 k0
  else c1

/-- The disk-hit cache population (src/server.js lines 131-138):
`imageCache.set(cacheKey, imageBuffer)` with no size check. -/
def diskHitInsert {κ α : Type} [DecidableEq κ] (c : List (κ × α))
    (k : κ) (v : α) : List (κ × α) :=
  mapSet c k v

/-- One memory-cache operation as performed by the request handler. -/
inductive CacheOp (κ α : Type) where
  | get : κ → CacheOp κ α
  | missPut : κ → α → CacheOp κ α
  | diskPut : κ → α → CacheOp κ α

/-- Whether an operation is the disk-hit population. -/
def CacheOp.isDiskPut {κ α : Type} : CacheOp κ α → Bool
  | .diskPut _ _ => true
  | _ => false

/-- Effect of one operation on the cache state: `Map.get` does not mutate the
map (reads do not refresh recency), the two populations are as in the code. -/
def runOp {κ α : Type} [DecidableEq κ] (cap : Nat) (c : List (κ × α)) :
    CacheOp κ α → List (κ × α)
  | .get _ => c
  | .missPut k v => missInsert cap c k v
  | .diskPut k v => diskHitInsert c k v

/-- Effect of a sequence of operations. -/
def runOps {κ α : Type} [DecidableEq κ] (cap : Nat) (ops : List (CacheOp κ α))
    (c : List (κ × α)) : List (κ × α) :=
  ops.foldl (runOp cap) c

/-! ## The transform parameters handed to the image-codec collaborator -/

/-- A `sharp(...).resize(targetWidth, null, opts)` invocation: the requested
width and whether `withoutEnlargement` is set. The height argument is `null`
in every variant, which makes the collaborator scale the height to preserve
the aspect ratio. -/
structure ResizeCall where
  targetWidth : Int
  withoutEnlargement : Bool
deriving DecidableEq, Repr

/-- The output width produced by the resize collaborator for an original
width `origW`: with `withoutEnlargement` the target is not allowed to exceed
the original, otherwise the target is used as-is (upscaling included). -/
def sharpOutWidth (origW : Nat) (rc : ResizeCall) : Nat :=
  if rc.withoutEnlargement ∧ origW < rc.targetWidth.toNat then origW
  else rc.targetWidth.toNat

/-- The resize decision of `optimizeImage` in src/server.js lines 49-58:
`if (width) { const targetWidth = parseInt(width);
  if (!isNaN(targetWidth) && targetWidth > 0)
    pipeline.resize(targetWidth, null, { withoutEnlargement: true, fit: 'inside' }) }`.
The incoming `width` is the handler's `parsedWidth` (number, `NaN` or `null`);
`null`, `NaN` and `0` are falsy, and `parseInt` of an integer is itself. -/
def serverResizeCall : JsVal → Option ResizeCall
  | .int n => if 0 < n then some ⟨n, true⟩ else none
  | _ => none

/-- The resize decision of the tenant handler in part_002 lines 85-91:
`if (width) { const parsedWidth = parseInt(width);
  if (!isNaN(parsedWidth) && parsedWidth > 0) transformer.resize(parsedWidth) }`.
`width` is the raw query string; no options object is passed, so
`withoutEnlargement` keeps its collaborator default `false`. -/
def part002ResizeCall : Option String → Option ResizeCall
  | none => none
  | some s =>
      if s = "" then none
      else
        match parseIntJs s with
        | some n => if 0 < n then some ⟨n, false⟩ else none
        | none => none

/-- The quality handed to the encoder by `optimizeImage` in src/server.js
lines 60-62: `const targetQuality = quality ? parseInt(quality) : 80;
Math.min(Math.max(targetQuality, 1), 100)`. The incoming `quality` is the
handler's `parsedQuality` (number, `NaN` or `null`). -/
def serverQuality (quality : JsVal) : Int :=
  let targetQuality : Int :=
    match quality with
    | .int n => if n = 0 then 80 else n
    | _ => 80
  min (max targetQuality 1) 100

/-- The quality handed to the encoder by `optimizeImage` in part_003 lines
82-90: `const targetQuality = quality ? parseInt(quality) : 80` and then
`toFormat(format, { quality: targetQuality, strip: true })` — no clamping. -/
def part003Quality (quality : JsVal) : Int :=
  match quality with
  | .int n => if n = 0 then 80 else n
  | _ => 80

/-- The tenant handler's parsed quality (part_002 line 94):
`const parsedQuality = quality ? parseInt(quality) : 80` on the raw query
string. This unclamped value is also what gets stored in the metadata record. -/
def part002ParsedQuality : Option String → JsVal
  | none => .int 80
  | some s => if s = "" then .int 80 else parseIntVal s

/-- `Math.min(Math.max(x, 1), 100)` (part_002 line 96); `NaN` propagates
through `Math.min`/`Math.max` as in JavaScript. -/
def clampJs : JsVal → JsVal
  | .int n => .int (min (max n 1) 100)
  | v => v

/-- `width || 'original'` on a raw query string (part_002 line 108). -/
def widthOrOriginal : Option String → String
  | none => "original"
  | some s => if s = "" then "original" else s

/-! ## The main request handler (src/server.js lines 90-179) -/

/-- The query parameters of `/process-image`; absent parameters are `none`
(`format` gets the destructuring default `'webp'` only when absent). -/
structure SReq where
  url : Option String
  width : Option String
  quality : Option String
  format : Option String

/-- `x ? parseInt(x) : null` on a raw query parameter (src/server.js lines
98-99); the empty string is falsy. -/
def parsedParam : Option String → JsVal
  | none => .null
  | some s => if s = "" then .null else parseIntVal s

/-- `const { format = 'webp' } = req.query`. -/
def fmtOf (req : SReq) : String :=
  match req.format with
  | none => "webp"
  | some f => f

/-- The cache key the handler computes (src/server.js line 109):
`getCacheKey(url, parsedWidth, parsedQuality, format)` — the parsed values
are stringified inside the template literal. -/
def reqKeyOf (req : SReq) (url : String) : String :=
  getCacheKey url (jsValStr (parsedParam req.width)) (jsValStr (parsedParam req.quality))
    (fmtOf req)

/-- Mutable state visible to the main handler: the in-memory `imageCache`
and the `tmp` directory as a map from file name to contents. -/
structure SState where
  mem : List (String × Bytes)
  disk : List (String × Bytes)
deriving DecidableEq, Repr

/-- The external collaborators of the main handler: the deterministic fetch
oracle (`none` = network error / timeout) and whether `fs.writeFileSync`
succeeds on the cache file. -/
structure SWorld where
  fetch : String → Option Bytes
  diskWriteOk : Bool

/-- The `X-Cache` response header values. -/
inductive XTag where
  | HIT : XTag
  | DISK_HIT : XTag
  | MISS : XTag
  | PROXY : XTag
deriving DecidableEq, Repr

/-- The response sent to the client. Error responses carry an empty body
(the textual error message is not modelled). -/
structure SResp where
  status : Nat
  xcache : Option XTag
  body : Bytes
deriving DecidableEq, Repr

/-- The observable outcome of one request: response, post-state, and whether
an outbound fetch of the source URL was attempted. -/
structure SOut where
  resp : SResp
  state : SState
  fetched : Bool
deriving DecidableEq, Repr

/-- The `/process-image` handler of src/server.js lines 90-179.
`tf` is the image-codec collaborator: it receives the source bytes, the
resize invocation computed by `optimizeImage` (src lines 49-58) and the
normalized quality (src lines 60-62) and returns the webp-encoded bytes, or
`none` when Sharp throws (the variant always encodes webp regardless of the
`format` parameter, and always sends `Content-Type: image/webp`).
Control flow: memory hit → `HIT`; disk hit → populate memory without any
size check, `DISK_HIT`; otherwise fetch (empty body throws), transform
(empty output throws), populate memory with eviction (lines 160-165), write
the temp file (line 168) and only then send `MISS`. Any throw is caught and
answered with status 500 — note that the memory cache was already updated
when `writeFileSync` throws. -/
def serverHandler (tf : Bytes → Option ResizeCall → Int → Option Bytes)
    (w : SWorld) (s : SState) (req : SReq) : SOut :=
  match req.url with
  | none => ⟨⟨400, none, []⟩, s, false⟩
  | some url =>
    if url = "" then ⟨⟨400, none, []⟩, s, false⟩
    else
      let key := reqKeyOf req url
      match mapGet s.mem key with
      | some cached => ⟨⟨200, some .HIT, cached⟩, s, false⟩
      | none =>
        let tempFile := key ++ ".webp"
        match mapGet s.disk tempFile with
        | some buf =>
            ⟨⟨200, some .DISK_HIT, buf⟩, ⟨diskHitInsert s.mem key buf, s.disk⟩, false⟩
        | none =>
          match w.fetch url with
          | none => ⟨⟨500, none, []⟩, s, true⟩
          | some data =>
            if data.length = 0 then ⟨⟨500, none, []⟩, s, true⟩
            else
              match tf data (serverResizeCall (parsedParam req.width))
                  (serverQuality (parsedParam req.quality)) with
              | none => ⟨⟨500, none, []⟩, s, true⟩
              | some processed =>
                if processed.length = 0 then ⟨⟨500, none, []⟩, s, true⟩
                else
                  let mem2 := missInsert CACHE_SIZE s.mem key processed
                  if w.diskWriteOk then
                    ⟨⟨200, some .MISS, processed⟩,
                      ⟨mem2, mapSet s.disk tempFile processed⟩, true⟩
                  else
                    ⟨⟨500, none, []⟩, ⟨mem2, s.disk⟩, true⟩

/-! ## The tenant (merchantId) handler (src/unnamed/part_002 lines 46-139) -/

/-- One record of a merchant's `metadata.json` (part_002 lines 106-113). -/
structure MetaRecord where
  url : String
  width : String
  quality : JsVal
  format : String
  merchantId : String
  createdAt : Nat
deriving DecidableEq, Repr

/-- Mutable state visible to the tenant handler: the filesystem as a map
from image file path to bytes, and the per-merchant-directory metadata
index (`metadata.json` contents, a map from file name to record). -/
structure TState where
  disk : List (String × Bytes)
  meta : List (String × List (String × MetaRecord))
deriving DecidableEq, Repr

/-- External collaborators of the tenant handler. `urlValid` models whether
`new URL(url)` succeeds; `imageWriteOk` whether `fs.writeFileSync` on the
image file succeeds; `metaWriteOk` whether the metadata write succeeds;
`now` is the clock used for `createdAt`. -/
structure TWorld where
  fetch : String → Option Bytes
  urlValid : String → Bool
  imageWriteOk : Bool
  metaWriteOk : Bool
  now : Nat

/-- Query parameters of the tenant `/process-image` endpoint. -/
structure TReq where
  url : Option String
  width : Option String
  quality : Option String
  format : Option String
  merchantId : Option String

/-- `const { format = 'webp' } = req.query` in the tenant handler. -/
def tFmt (req : TReq) : String :=
  match req.format with
  | none => "webp"
  | some f => f

/-- `ensureMerchantDir` (part_002 lines 21-27): the namespace directory
`merchant_${merchantId}` (directory creation is idempotent and not
modelled further). -/
def merchantDirOf (mid : String) : String :=
  "merchant_" ++ mid

/-- The full path of the cached image file for a tenant request
(part_002 line 59): `path.join(merchantDir, fileName)`. -/
def tenantFilePath (req : TReq) (url mid : String) : String :=
  merchantDirOf mid ++ "/" ++ generateFileName url req.width req.quality (tFmt req) mid

/-- `saveMetadata` (part_002 lines 30-44): read the directory's existing
`metadata.json` (empty when absent), add/overwrite the entry for `fileName`
and write it back. In part_002 the whole body is wrapped in try/catch, so a
failing write is only logged — that flag lives in `TWorld.metaWriteOk` and
is applied at the call site of this model. -/
def saveMetadata (meta : List (String × List (String × MetaRecord)))
    (merchantDir fileName : String) (rec : MetaRecord) :
    List (String × List (String × MetaRecord)) :=
  let existingMetadata := (mapGet meta merchantDir).getD []
  mapSet meta merchantDir (mapSet existingMetadata fileName rec)

/-- The observable outcome of one tenant request. The tenant handler sets no
`X-Cache` header, so only status, body, post-state and the fetch indicator
are recorded. -/
structure TOut where
  status : Nat
  body : Bytes
  state : TState
  fetched : Bool
deriving DecidableEq, Repr

/-- The tenant `/process-image` handler (part_002 lines 46-139).
`tf` is the image-codec collaborator, receiving source bytes, the resize
invocation (part_002 lines 85-91), the clamped encoder quality (lines
94-97) and the target format, returning the encoded bytes or `none` when
Sharp throws. Flow: missing/empty `url` or `merchantId` → 400; invalid URL
(`new URL` throws) → caught, 500; exact-file-name cache hit → 200 with the
stored bytes, no fetch, no state change; otherwise fetch (failure → caught;
the 404/upstream-status refinements of the catch block all collapse to 500
here, no claim depends on the distinction), transform, write the image file
(a throw is caught → 500 with nothing stored), then append the metadata
record (its own failure only logged) and send 200.
There is no lookup of the metadata index anywhere: it is write-only. -/
def tenantHandler (tf : Bytes → Option ResizeCall → JsVal → String → Option Bytes)
    (w : TWorld) (s : TState) (req : TReq) : TOut :=
  match req.url, req.merchantId with
  | some url, some mid =>
    if url = "" ∨ mid = "" then ⟨400, [], s, false⟩
    else if ¬ w.urlValid url then ⟨500, [], s, false⟩
    else
      let fileName := generateFileName url req.width req.quality (tFmt req) mid
      let filePath := tenantFilePath req url mid
      match mapGet s.disk filePath with
      | some imageBuffer => ⟨200, imageBuffer, s, false⟩
      | none =>
        match w.fetch url with
        | none => ⟨500, [], s, true⟩
        | some data =>
          let parsedQuality := part002ParsedQuality req.quality
          match tf data (part002ResizeCall req.width) (clampJs parsedQuality) (tFmt req) with
          | none => ⟨500, [], s, true⟩
          | some processedImage =>
            if w.imageWriteOk then
              let disk2 := mapSet s.disk filePath processedImage
              let meta2 :=
                if w.metaWriteOk then
                  saveMetadata s.meta (merchantDirOf mid) fileName
                    ⟨url, widthOrOriginal req.width, parsedQuality, tFmt req, mid, w.now⟩
                else s.meta
              ⟨200, processedImage, ⟨disk2, meta2⟩, true⟩
            else ⟨500, [], s, true⟩
  | _, _ => ⟨400, [], s, false⟩

/-! ## String cancellation helpers -/

theorem strAppendCancelRight {s t u : String} (h : s ++ u = t ++ u) : s = t := by
  have h2 := congrArg String.data h
  simp only [String.data_append] at h2
  have h3 := List.append_cancel_right h2
  cases s; cases t; exact congrArg String.mk h3

theorem strAppendCancelLeft {u s t : String} (h : u ++ s = u ++ t) : s = t := by
  have h2 := congrArg String.data h
  simp only [String.data_append] at h2
  have h3 := List.append_cancel_left h2
  cases s; cases t; exact congrArg String.mk h3

/-! ## Injectivity of the key preimage in each single field -/

theorem getCacheKey_url_inj {u1 u2 w q f : String}
    (h : getCacheKey u1 w q f = getCacheKey u2 w q f) : u1 = u2 := by
  unfold getCacheKey at h
  exact strAppendCancelRight (strAppendCancelRight (strAppendCancelRight
    (strAppendCancelRight (strAppendCancelRight (strAppendCancelRight h)))))

theorem getCacheKey_width_inj {u w1 w2 q f : String}
    (h : getCacheKey u w1 q f = getCacheKey u w2 q f) : w1 = w2 := by
  unfold getCacheKey at h
  exact strAppendCancelLeft (strAppendCancelRight (strAppendCancelRight
    (strAppendCancelRight (strAppendCancelRight h))))

theorem getCacheKey_quality_inj {u w q1 q2 f : String}
    (h : getCacheKey u w q1 f = getCacheKey u w q2 f) : q1 = q2 := by
  unfold getCacheKey at h
  exact strAppendCancelLeft (strAppendCancelRight (strAppendCancelRight h))

theorem getCacheKey_format_inj {u w q f1 f2 : String}
    (h : getCacheKey u w q f1 = getCacheKey u w q f2) : f1 = f2 := by
  unfold getCacheKey at h
  exact strAppendCancelLeft h

theorem generateFileName_width_inj {u : String} {w1 w2 q : Option String}
    {f m : String}
    (h : generateFileName u w1 q f m = generateFileName u w2 q f m) :
    jsTemplateOpt w1 = jsTemplateOpt w2 := by
  unfold generateFileName at h
  exact getCacheKey_width_inj (strAppendCancelRight (strAppendCancelRight h))

/-! ## Association-map lemmas -/

section MapLemmas

variable {κ : Type} {α : Type} [DecidableEq κ]

theorem length_mapSet_le (c : List (κ × α)) (k : κ) (v : α) :
    (mapSet c k v).length ≤ c.length + 1 := by
  induction c with
  | nil => simp [mapSet]
  | cons p rest ih =>
      obtain ⟨k', v'⟩ := p
      simp only [mapSet, List.length_cons]
      split
      · simp
      · simpa using Nat.succ_le_succ ih

theorem mapSet_of_not_mem {c : List (κ × α)} {k : κ} (v : α)
    (h : k ∉ c.map Prod.fst) : mapSet c k v = c ++ [(k, v)] := by
  induction c with
  | nil => rfl
  | cons p rest ih =>
      obtain ⟨k', v'⟩ := p
      simp only [List.map_cons, List.mem_cons] at h
      push_neg at h
      simp only [mapSet]
      rw [if_neg (fun he => h.1 he.symm), ih h.2, List.cons_append]

theorem mapGet_of_not_mem {c : List (κ × α)} {k : κ}
    (h : k ∉ c.map Prod.fst) : mapGet c k = none := by
  induction c with
  | nil => rfl
  | cons p rest ih =>
      obtain ⟨k', v'⟩ := p
      simp only [List.map_cons, List.mem_cons] at h
      push_neg at h
      simp only [mapGet]
      rw [if_neg (fun he => h.1 he.symm)]
      exact ih h.2

theorem mapGet_mem_of_nodup {c : List (κ × α)} {k : κ} {v : α}
    (hnd : (c.map Prod.fst).Nodup) (hmem : (k, v) ∈ c) :
    mapGet c k = some v := by
  induction c with
  | nil => simp at hmem
  | cons p rest ih =>
      obtain ⟨k', v'⟩ := p
      simp only [List.map_cons, List.nodup_cons] at hnd
      rcases List.mem_cons.mp hmem with h | h
      · cases h
        simp [mapGet]
      · have hk : k' ≠ k := by
          intro he
          exact hnd.1 (he ▸ List.mem_map.mpr ⟨(k, v), h, rfl⟩)
        simp only [mapGet]
        rw [if_neg hk]
        exact ih hnd.2 h

theorem mapDelete_cons_self (k : κ) (v : α) (rest : List (κ × α)) :
    mapDelete ((k, v) :: rest) k = rest := by
  simp [mapDelete]

theorem length_missInsert_le {cap : Nat} {c : List (κ × α)} {k : κ} {v : α}
    (hc : c.length ≤ cap) : (missInsert cap c k v).length ≤ cap := by
  have h1 := length_mapSet_le c k v
  simp only [missInsert]
  split
  · split
    · next heq => rw [heq]; simp
    · next k0 v0 rest heq =>
        rw [heq, mapDelete_cons_self]
        have h2 := congrArg List.length heq
        simp only [List.length_cons] at h2
        omega
  · next hle => omega

theorem missInsert_fresh_no_evict (cap : Nat) {c : List (κ × α)} {k : κ} {v : α}
    (hfresh : k ∉ c.map Prod.fst) (hlen : c.length + 1 ≤ cap) :
    missInsert cap c k v = c ++ [(k, v)] := by
  have hset := mapSet_of_not_mem (c := c) (k := k) v hfresh
  have h2 : (mapSet c k v).length = c.length + 1 := by rw [hset]; simp
  simp only [missInsert]
  rw [if_neg (by omega), hset]

theorem runOps_missPut_fill (cap : Nat) :
    ∀ (ps : List (κ × α)) (c : List (κ × α)),
      c.length + ps.length ≤ cap →
      ((c ++ ps).map Prod.fst).Nodup →
      runOps cap (ps.map fun p => CacheOp.missPut p.1 p.2) c = c ++ ps := by
  intro ps
  induction ps with
  | nil => intro c _ _; simp [runOps]
  | cons p rest ih =>
      intro c hlen hnd
      obtain ⟨k, v⟩ := p
      have hfresh : k ∉ c.map Prod.fst := by
        intro hmem
        have hdisj := (List.nodup_append.mp (by simpa using hnd)).2.2
        exact hdisj hmem (by simp)
      have hlen1 : c.length + 1 ≤ cap := by
        simp only [List.length_cons] at hlen
        omega
      have hmiss := missInsert_fresh_no_evict cap (v := v) hfresh hlen1
      have step : runOps cap (((k, v) :: rest).map fun p => CacheOp.missPut p.1 p.2) c =
          runOps cap (rest.map fun p => CacheOp.missPut p.1 p.2) (missInsert cap c k v) := rfl
      rw [step, hmiss, ih (c ++ [(k, v)])
        (by simp only [List.length_append, List.length_cons, List.length_nil] at hlen ⊢; omega)
        (by simpa [List.append_assoc] using hnd)]
      simp

end MapLemmas

/-! ## Claim C3 -/

/-- Claim C3, amended (the memory cache bound): every operation sequence of
reads and miss-path insertions preserves `size ≤ cap` — but the disk-hit
population is excluded, because src/server.js lines 131-138 insert without
any size check (see the counterexample `claimC3_counterexample`). -/
theorem claimC3_bound {κ α : Type} [DecidableEq κ] (cap : Nat)
    (ops : List (CacheOp κ α)) (hno : ∀ op ∈ ops, op.isDiskPut = false)
    (c : List (κ × α)) (hc : c.length ≤ cap) :
    (runOps cap ops c).length ≤ cap := by
  induction ops generalizing c with
  | nil => simpa [runOps] using hc
  | cons op rest ih =>
      have hop : op.isDiskPut = false := hno op (by simp)
      have hrest : ∀ o ∈ rest, o.isDiskPut = false := fun o ho => hno o (by simp [ho])
      have step : runOps cap (op :: rest) c = runOps cap rest (runOp cap c op) := rfl
      rw [step]
      cases op with
      | get k => exact ih hrest c hc
      | missPut k v => exact ih hrest _ (length_missInsert_le hc)
      | diskPut k v => simp [CacheOp.isDiskPut] at hop

set_option maxRecDepth 20000 in
/-- Claim C3, refuted as stated: starting from an empty cache, one hundred
distinct miss-path insertions fill the capacity-100 cache, and a single
disk-hit population of a new key then yields 101 entries — the claimed
invariant `size ≤ CACHE_SIZE` does not survive the disk-hit population. -/
theorem claimC3_counterexample :
    ¬ ((runOps CACHE_SIZE
        (((List.range 100).map fun i => CacheOp.missPut i ([i] : Bytes)) ++
          [CacheOp.diskPut 100 [100]]) []).length ≤ CACHE_SIZE) := by
  decide

/-- Witness for `claimC3_bound` at a concrete input. -/
theorem claimC3_bound_witness :
    (runOps CACHE_SIZE [CacheOp.get 0, CacheOp.missPut 1 ([1] : Bytes)] []).length ≤
      CACHE_SIZE :=
  claimC3_bound CACHE_SIZE _ (by decide) [] (by decide)

/-! ## Claim C7 -/

/-- Claim C7 (eviction order): inserting `cap + 1` distinct keys through the
miss path into an initially empty capacity-`cap` cache — with a read of the
first key interleaved just before the final insertion, which does not
refresh its recency — evicts exactly the earliest-inserted key: the final
cache is the remaining `cap` entries in insertion order, the first key is
absent on lookup, and every other key is still present with its value. -/
theorem claimC7_eviction {κ α : Type} [DecidableEq κ] (cap : Nat)
    (k0 : κ) (v0 : α) (mid : List (κ × α)) (kl : κ) (vl : α)
    (hlen : mid.length + 1 = cap)
    (hnd : (((k0, v0) :: (mid ++ [(kl, vl)])).map Prod.fst).Nodup) :
    runOps cap
        ((((k0, v0) :: mid).map fun p => CacheOp.missPut p.1 p.2) ++
          [CacheOp.get k0, CacheOp.missPut kl vl]) [] =
      mid ++ [(kl, vl)] ∧
    mapGet (mid ++ [(kl, vl)]) k0 = none ∧
    (∀ p ∈ mid ++ [(kl, vl)], mapGet (mid ++ [(kl, vl)]) p.1 = some p.2) ∧
    (mid ++ [(kl, vl)]).length = cap := by
  have hndTail : ((mid ++ [(kl, vl)]).map Prod.fst).Nodup := by
    simp only [List.map_cons, List.nodup_cons] at hnd
    exact hnd.2
  have hk0 : k0 ∉ (mid ++ [(kl, vl)]).map Prod.fst := by
    simp only [List.map_cons, List.nodup_cons] at hnd
    exact hnd.1
  have hndFill : ((([] : List (κ × α)) ++ ((k0, v0) :: mid)).map Prod.fst).Nodup := by
    simp only [List.nil_append]
    have := hnd
    simp only [List.map_cons, List.map_append, List.nodup_cons, List.nodup_append] at this ⊢
    constructor
    · intro hmem
      exact this.1 (List.mem_append.mpr (Or.inl hmem))
    · exact (this.2).1
  have hfill := runOps_missPut_fill cap ((k0, v0) :: mid) []
    (by simp only [List.length_nil, List.length_cons]; omega) hndFill
  have hsplit : runOps cap
      ((((k0, v0) :: mid).map fun p => CacheOp.missPut p.1 p.2) ++
        [CacheOp.get k0, CacheOp.missPut kl vl]) [] =
      missInsert cap (runOps cap (((k0, v0) :: mid).map fun p => CacheOp.missPut p.1 p.2) [])
        kl vl := by
    simp only [runOps, List.foldl_append]
    rfl
  have hklFresh : kl ∉ ((k0, v0) :: mid).map Prod.fst := by
    intro hmem
    simp only [List.map_cons, List.map_append, List.nodup_cons, List.nodup_append,
      List.mem_cons] at hnd hmem
    rcases hmem with h | h
    · exact hnd.1 (List.mem_append.mpr (Or.inr (by simp [h])))
    · exact ((hnd.2.2.2) h) (by simp)
  have hfinal : missInsert cap ((k0, v0) :: mid) kl vl = mid ++ [(kl, vl)] := by
    have hset := mapSet_of_not_mem (c := (k0, v0) :: mid) (k := kl) vl hklFresh
    have hlenSet : (mapSet ((k0, v0) :: mid) kl vl).length = cap + 1 := by
      rw [hset]; simp; omega
    simp only [missInsert]
    rw [if_pos (by omega), hset]
    simp only [List.cons_append]
    rw [mapDelete_cons_self]
  refine ⟨?_, mapGet_of_not_mem hk0, fun p hp => mapGet_mem_of_nodup hndTail hp, by
    simp only [List.length_append, List.length_cons, List.length_nil]; omega⟩
  rw [hsplit, hfill]
  simpa using hfinal

set_option maxRecDepth 20000 in
/-- Witness for `claimC7_eviction` at the code's capacity 100 with 101
distinct keys. -/
theorem claimC7_eviction_witness :
    mapGet ((((List.range 99).map fun i => (i + 1, ([] : Bytes))) ++ [(100, [])])) 0 =
      none :=
  (claimC7_eviction CACHE_SIZE 0 [0] ((List.range 99).map fun i => (i + 1, ([] : Bytes)))
    100 [] (by decide) (by decide)).2.1

/-! ## Claim C4 -/

/-- Claim C4, refuted as stated: in the serverless variant part_003 (lines
82-90), the quality handed to the encoder is not clamped — a request with
`quality=150` passes 150 to `toFormat`, outside the claimed range 1-100. -/
theorem claimC4_counterexample :
    part003Quality (JsVal.int 150) = 150 ∧ ¬ part003Quality (JsVal.int 150) ≤ 100 := by
  decide

/-- Claim C4, amended: the `optimizeImage` of src/server.js (and likewise
part_001 and part_002) clamps the encoder quality into 1-100 with default 80
when the parameter is absent, but part_003 (and part_000) pass the parsed
quality through unclamped, with only the default 80 on absence. -/
theorem claimC4_quality :
    (∀ q : JsVal, 1 ≤ serverQuality q ∧ serverQuality q ≤ 100) ∧
    serverQuality JsVal.null = 80 ∧
    (∀ n : Int, n ≠ 0 → part003Quality (JsVal.int n) = n) ∧
    part003Quality JsVal.null = 80 := by
  refine ⟨fun q => ?_, by decide, fun n hn => ?_, by decide⟩
  · rcases q with _ | _ | n <;> simp only [serverQuality] <;> omega
  · simp [part003Quality, hn]

/-- Witness for `claimC4_quality` at concrete inputs: quality 150 is clamped
to the range by server.js but passed through by part_003. -/
theorem claimC4_quality_witness :
    (1 ≤ serverQuality (JsVal.int 150) ∧ serverQuality (JsVal.int 150) ≤ 100) ∧
    part003Quality (JsVal.int 150) = 150 :=
  ⟨claimC4_quality.1 (JsVal.int 150), claimC4_quality.2.2.1 150 (by decide)⟩

/-! ## Claim C5 -/

/-- Claim C5, refuted as stated: the tenant handler part_002 (lines 85-91)
invokes `resize(parsedWidth)` without `withoutEnlargement`, so a request
with `width=200` on a 100-pixel-wide original upscales to 200. -/
theorem claimC5_counterexample :
    part002ResizeCall (some "200") = some ⟨200, false⟩ ∧
    sharpOutWidth 100 ⟨200, false⟩ = 200 ∧ 100 < 200 := by
  refine ⟨?_, by decide, by decide⟩
  decide

/-- Claim C5, amended: `optimizeImage` of src/server.js (and part_001)
always invokes resize with `withoutEnlargement: true` and a `null` height
(aspect-preserving), so its output width never exceeds the original; the
variants part_000, part_002 and part_003 invoke `resize` without options and
can upscale. -/
theorem claimC5_resize (v : JsVal) (rc : ResizeCall)
    (h : serverResizeCall v = some rc) :
    rc.withoutEnlargement = true ∧ 0 < rc.targetWidth ∧
      ∀ origW : Nat, sharpOutWidth origW rc ≤ origW := by
  rcases v with _ | _ | n <;> simp only [serverResizeCall] at h
  · exact absurd h (by simp)
  · exact absurd h (by simp)
  · by_cases hpos : 0 < n
    · rw [if_pos hpos] at h
      cases Option.some.injEq .. ▸ h
      refine ⟨rfl, hpos, fun origW => ?_⟩
      simp only [sharpOutWidth]
      split
      · exact Nat.le_refl _
      · next hcond =>
          push_neg at hcond
          exact hcond trivial
    · rw [if_neg hpos] at h
      exact absurd h (by simp)

/-- Witness for `claimC5_resize`: the server.js resize call for `width=200`
sets `withoutEnlargement` and cannot exceed a 100-pixel original. -/
theorem claimC5_resize_witness :
    ResizeCall.withoutEnlargement ⟨200, true⟩ = true ∧ 0 < (200 : Int) ∧
      ∀ origW : Nat, sharpOutWidth origW ⟨200, true⟩ ≤ origW := by
  have h := claimC5_resize (JsVal.int 200) ⟨200, true⟩ (by decide)
  exact ⟨h.1, h.2.1, h.2.2⟩

/-! ## Claim C6 -/

/-- Claim C6, refuted as stated: the dash-joined preimage
`` `${url}-${width}-${quality}-${format}` `` is ambiguous, so the two
distinct tuples `("a-1", "2", …)` and `("a", "1-2", …)` produce the very
same preimage and hence the very same MD5 key — with certainty, not merely
up to hash collision. -/
theorem claimC6_counterexample :
    getCacheKey "a-1" "2" "70" "webp" = getCacheKey "a" "1-2" "70" "webp" ∧
      (("a-1", "2") : String × String) ≠ ("a", "1-2") := by
  refine ⟨by decide, by decide⟩

/-- Claim C6, amended: key derivation is deterministic (it is a pure
function of the four fields), and two tuples that differ in exactly one
field — the other three being equal — always yield different preimages,
hence different keys up to MD5 collision; only tuples differing in two or
more fields can collide exactly, through the separator ambiguity of the
counterexample. -/
theorem claimC6_separating :
    (∀ u1 u2 w q f : String, getCacheKey u1 w q f = getCacheKey u2 w q f → u1 = u2) ∧
    (∀ u w1 w2 q f : String, getCacheKey u w1 q f = getCacheKey u w2 q f → w1 = w2) ∧
    (∀ u w q1 q2 f : String, getCacheKey u w q1 f = getCacheKey u w q2 f → q1 = q2) ∧
    (∀ u w q f1 f2 : String, getCacheKey u w q f1 = getCacheKey u w q f2 → f1 = f2) :=
  ⟨fun _ _ _ _ _ h => getCacheKey_url_inj h,
   fun _ _ _ _ _ h => getCacheKey_width_inj h,
   fun _ _ _ _ _ h => getCacheKey_quality_inj h,
   fun _ _ _ _ _ h => getCacheKey_format_inj h⟩

/-- Witness for `claimC6_separating` at concrete inputs. -/
theorem claimC6_separating_witness :
    ("http://e/a.png" : String) = "http://e/a.png" ∧ ("200" : String) = "200" :=
  ⟨claimC6_separating.1 "http://e/a.png" "http://e/a.png" "200" "70" "webp" rfl,
   claimC6_separating.2.1 "http://e/a.png" "200" "200" "70" "webp" rfl⟩

/-! ## Claim C10 -/

/-- Claim C10 (confirmed): the stored file name derived by
`generateFileName` does not depend on the `merchantId` argument at all —
two requests identical except for the tenant produce the same file name —
so tenant isolation rests solely on the namespace directory
`merchant_${merchantId}`, and distinct merchant ids give distinct
directories. -/
theorem claimC10_tenant_key_independent :
    (∀ (u : String) (w q : Option String) (f m1 m2 : String),
        generateFileName u w q f m1 = generateFileName u w q f m2) ∧
    (∀ m1 m2 : String, merchantDirOf m1 = merchantDirOf m2 ↔ m1 = m2) :=
  ⟨fun _ _ _ _ _ _ => rfl,
   fun m1 m2 => ⟨fun h => strAppendCancelLeft h, fun h => h ▸ rfl⟩⟩

/-! ## Claim C9 -/

/-- Claim C9 (confirmed): on a memory-cache hit, the handler returns the
cached bytes with status 200 and `X-Cache: HIT`, leaves the entire state
(memory cache in its insertion order, disk cache) untouched, and performs
no outbound fetch. -/
theorem claimC9_hit_frame (tf : Bytes → Option ResizeCall → Int → Option Bytes)
    (w : SWorld) (s : SState) (req : SReq) (url : String) (b : Bytes)
    (hurl : req.url = some url) (hne : url ≠ "")
    (hmem : mapGet s.mem (reqKeyOf req url) = some b) :
    serverHandler tf w s req = ⟨⟨200, some XTag.HIT, b⟩, s, false⟩ := by
  simp only [serverHandler, hurl]
  rw [if_neg hne]
  simp only [hmem]

/-- Witness for `claimC9_hit_frame` at a concrete pre-populated state. -/
theorem claimC9_hit_frame_witness :
    serverHandler (fun data _ _ => some data) ⟨fun _ => some [7], true⟩
        ⟨[("u-null-null-webp", [5])], []⟩ ⟨some "u", none, none, none⟩ =
      ⟨⟨200, some XTag.HIT, [5]⟩, ⟨[("u-null-null-webp", [5])], []⟩, false⟩ :=
  claimC9_hit_frame (fun data _ _ => some data) ⟨fun _ => some [7], true⟩
    ⟨[("u-null-null-webp", [5])], []⟩ ⟨some "u", none, none, none⟩ "u" [5]
    rfl (by decide) (by decide)

/-! ## Claim C2 -/

/-- Claim C2, refuted as stated: with the fetch and the transform both
succeeding (bytes `[7]` are produced and even stored in the memory cache),
a failing `fs.writeFileSync` on the cache file makes src/server.js answer
status 500 — the write at line 168 happens before `res.send` at line 173,
so a storage failure does fail a request that already had bytes to return. -/
theorem claimC2_counterexample :
    (serverHandler (fun data _ _ => some data) ⟨fun _ => some [7], false⟩ ⟨[], []⟩
        ⟨some "u", none, none, none⟩).resp.status = 500 ∧
    (serverHandler (fun data _ _ => some data) ⟨fun _ => some [7], false⟩ ⟨[], []⟩
        ⟨some "u", none, none, none⟩).state.mem = [("u-null-null-webp", [7])] := by
  decide

/-- Claim C2, amended: in src/server.js (and part_001/part_003) the image
file is written before the response is sent, so a cache-write failure on a
request that already produced bytes yields a 500 with no image body (the
memory cache having already been populated, the disk untouched); only the
tenant variant part_002 treats a storage failure as best-effort, and only
for the metadata index: a failing metadata write there still returns the
transformed bytes with status 200, the error being merely logged. -/
theorem claimC2_storage :
    (∀ (tf : Bytes → Option ResizeCall → Int → Option Bytes) (w : SWorld)
        (s : SState) (req : SReq) (url : String) (d p : Bytes),
      req.url = some url → url ≠ "" →
      mapGet s.mem (reqKeyOf req url) = none →
      mapGet s.disk (reqKeyOf req url ++ ".webp") = none →
      w.fetch url = some d → d ≠ [] →
      tf d (serverResizeCall (parsedParam req.width))
          (serverQuality (parsedParam req.quality)) = some p →
      p ≠ [] → w.diskWriteOk = false →
      (serverHandler tf w s req).resp.status = 500 ∧
      (serverHandler tf w s req).resp.body = [] ∧
      (serverHandler tf w s req).state.mem =
        missInsert CACHE_SIZE s.mem (reqKeyOf req url) p ∧
      (serverHandler tf w s req).state.disk = s.disk) ∧
    (∀ (tf : Bytes → Option ResizeCall → JsVal → String → Option Bytes)
        (w : TWorld) (s : TState) (req : TReq) (url mid : String) (d p : Bytes),
      req.url = some url → req.merchantId = some mid → url ≠ "" → mid ≠ "" →
      w.urlValid url = true →
      mapGet s.disk (tenantFilePath req url mid) = none →
      w.fetch url = some d →
      tf d (part002ResizeCall req.width)
          (clampJs (part002ParsedQuality req.quality)) (tFmt req) = some p →
      w.imageWriteOk = true → w.metaWriteOk = false →
      (tenantHandler tf w s req).status = 200 ∧
      (tenantHandler tf w s req).body = p ∧
      (tenantHandler tf w s req).state.meta = s.meta ∧
      (tenantHandler tf w s req).state.disk =
        mapSet s.disk (tenantFilePath req url mid) p) := by
  constructor
  · intro tf w s req url d p hurl hne hmem hdisk hf hd htf hp hw
    have hd0 : ¬ d.length = 0 := fun h0 => hd (List.length_eq_zero.mp h0)
    have hp0 : ¬ p.length = 0 := fun h0 => hp (List.length_eq_zero.mp h0)
    simp only [serverHandler, hurl]
    rw [if_neg hne]
    simp only [hmem, hdisk, hf]
    rw [if_neg hd0]
    simp only [htf]
    rw [if_neg hp0, hw]
    simp
  · intro tf w s req url mid d p hurl hmid hne hmne hv hdisk hf htf hwr hmw
    obtain ⟨u0, w0, q0, f0, m0⟩ := req
    cases hurl
    cases hmid
    simp only [tenantHandler]
    rw [if_neg (by simp [hne, hmne])]
    rw [if_neg (by simp [hv])]
    simp only [hdisk, hf, htf, hwr, hmw]
    simp

/-- Witness for `claimC2_storage` at concrete inputs: part (a) with a
failing cache write, part (b) with a failing metadata write. -/
theorem claimC2_storage_witness :
    ((serverHandler (fun data _ _ => some data) ⟨fun _ => some [7], false⟩ ⟨[], []⟩
        ⟨some "u", none, none, none⟩).resp.status = 500 ∧
     (serverHandler (fun data _ _ => some data) ⟨fun _ => some [7], false⟩ ⟨[], []⟩
        ⟨some "u", none, none, none⟩).resp.body = []) ∧
    ((tenantHandler (fun data _ _ _ => some data)
        ⟨fun _ => some [9], fun _ => true, true, false, 0⟩ ⟨[], []⟩
        ⟨some "u", none, none, none, some "m"⟩).status = 200 ∧
     (tenantHandler (fun data _ _ _ => some data)
        ⟨fun _ => some [9], fun _ => true, true, false, 0⟩ ⟨[], []⟩
        ⟨some "u", none, none, none, some "m"⟩).body = [9]) := by
  have ha := claimC2_storage.1 (fun data _ _ => some data) ⟨fun _ => some [7], false⟩
    ⟨[], []⟩ ⟨some "u", none, none, none⟩ "u" [7] [7]
    rfl (by decide) (by decide) (by decide) rfl (by decide) rfl (by decide) rfl
  have hb := claimC2_storage.2 (fun data _ _ _ => some data)
    ⟨fun _ => some [9], fun _ => true, true, false, 0⟩ ⟨[], []⟩
    ⟨some "u", none, none, none, some "m"⟩ "u" "m" [9] [9]
    rfl rfl (by decide) (by decide) rfl (by decide) rfl rfl rfl rfl
  exact ⟨⟨ha.1, ha.2.1⟩, ⟨hb.1, hb.2.1⟩⟩

/-! ## Claim C8 -/

theorem missInsert_nil {κ α : Type} [DecidableEq κ] {cap : Nat} (hcap : 1 ≤ cap)
    (k : κ) (v : α) : missInsert cap [] k v = [(k, v)] := by
  have h := missInsert_fresh_no_evict cap (c := []) (k := k) (v := v)
    (by simp) (by simpa using hcap)
  simpa using h

/-- Claim C8 (confirmed): processing the same valid request twice from empty
caches returns byte-identical content: the first response carries the
transformed bytes tagged `MISS` (after one fetch), and the second request is
served from the populated memory cache tagged `HIT` with the very same
bytes, performing no fetch. -/
theorem claimC8_idempotent (tf : Bytes → Option ResizeCall → Int → Option Bytes)
    (w : SWorld) (req : SReq) (url : String) (d p : Bytes)
    (hurl : req.url = some url) (hne : url ≠ "")
    (hf : w.fetch url = some d) (hd : d ≠ [])
    (htf : tf d (serverResizeCall (parsedParam req.width))
        (serverQuality (parsedParam req.quality)) = some p)
    (hp : p ≠ []) (hw : w.diskWriteOk = true) :
    (serverHandler tf w ⟨[], []⟩ req).resp.xcache = some XTag.MISS ∧
    (serverHandler tf w ⟨[], []⟩ req).resp.body = p ∧
    (serverHandler tf w ⟨[], []⟩ req).fetched = true ∧
    (serverHandler tf w (serverHandler tf w ⟨[], []⟩ req).state req).resp.xcache =
      some XTag.HIT ∧
    (serverHandler tf w (serverHandler tf w ⟨[], []⟩ req).state req).resp.body = p ∧
    (serverHandler tf w (serverHandler tf w ⟨[], []⟩ req).state req).fetched = false := by
  have hd0 : ¬ d.length = 0 := fun h0 => hd (List.length_eq_zero.mp h0)
  have hp0 : ¬ p.length = 0 := fun h0 => hp (List.length_eq_zero.mp h0)
  have e1 : serverHandler tf w ⟨[], []⟩ req =
      ⟨⟨200, some XTag.MISS, p⟩,
        ⟨[(reqKeyOf req url, p)], [(reqKeyOf req url ++ ".webp", p)]⟩, true⟩ := by
    simp only [serverHandler, hurl]
    rw [if_neg hne]
    simp only [mapGet, hf]
    rw [if_neg hd0]
    simp only [htf]
    rw [if_neg hp0, hw]
    simp only [if_true]
    rw [missInsert_nil (by norm_num [CACHE_SIZE])]
    simp [mapSet]
  have e2 : serverHandler tf w
      ⟨[(reqKeyOf req url, p)], [(reqKeyOf req url ++ ".webp", p)]⟩ req =
      ⟨⟨200, some XTag.HIT, p⟩,
        ⟨[(reqKeyOf req url, p)], [(reqKeyOf req url ++ ".webp", p)]⟩, false⟩ := by
    simp only [serverHandler, hurl]
    rw [if_neg hne]
    simp [mapGet]
  rw [e1, e2]
  simp

/-- Witness for `claimC8_idempotent` at a concrete request against a
one-image origin. -/
theorem claimC8_idempotent_witness :
    (serverHandler (fun data _ _ => some data) ⟨fun _ => some [7], true⟩ ⟨[], []⟩
        ⟨some "u", none, none, none⟩).resp.xcache = some XTag.MISS ∧
    (serverHandler (fun data _ _ => some data) ⟨fun _ => some [7], true⟩
        (serverHandler (fun data _ _ => some data) ⟨fun _ => some [7], true⟩ ⟨[], []⟩
          ⟨some "u", none, none, none⟩).state
        ⟨some "u", none, none, none⟩).resp.xcache = some XTag.HIT := by
  have h := claimC8_idempotent (fun data _ _ => some data) ⟨fun _ => some [7], true⟩
    ⟨some "u", none, none, none⟩ "u" [7] [7]
    rfl (by decide) rfl (by decide) rfl (by decide) rfl
  exact ⟨h.1, h.2.2.2.1⟩

/-! ## Claim C1 -/

/-- Claim C1, refuted as stated: in tenant mode, two requests for the same
source URL with widths 100 then 50 derive different file names, so the
second request misses the exact-name lookup and fetches the source again
(`fetched = true` on both runs), and its body is a fresh transformation
rather than the first request's stored result — there is no URL-based
fallback lookup in the code, the metadata index is write-only. -/
theorem claimC1_counterexample :
    (tenantHandler
        (fun data rc _ _ =>
          some (data ++ [(match rc with | some c => c.targetWidth.toNat | none => 0)]))
        ⟨fun _ => some [9], fun _ => true, true, true, 0⟩ ⟨[], []⟩
        ⟨some "u", some "100", none, none, some "m"⟩).fetched = true ∧
    (tenantHandler
        (fun data rc _ _ =>
          some (data ++ [(match rc with | some c => c.targetWidth.toNat | none => 0)]))
        ⟨fun _ => some [9], fun _ => true, true, true, 0⟩
        (tenantHandler
          (fun data rc _ _ =>
            some (data ++ [(match rc with | some c => c.targetWidth.toNat | none => 0)]))
          ⟨fun _ => some [9], fun _ => true, true, true, 0⟩ ⟨[], []⟩
          ⟨some "u", some "100", none, none, some "m"⟩).state
        ⟨some "u", some "50", none, none, some "m"⟩).fetched = true ∧
    (tenantHandler
        (fun data rc _ _ =>
          some (data ++ [(match rc with | some c => c.targetWidth.toNat | none => 0)]))
        ⟨fun _ => some [9], fun _ => true, true, true, 0⟩
        (tenantHandler
          (fun data rc _ _ =>
            some (data ++ [(match rc with | some c => c.targetWidth.toNat | none => 0)]))
          ⟨fun _ => some [9], fun _ => true, true, true, 0⟩ ⟨[], []⟩
          ⟨some "u", some "100", none, none, some "m"⟩).state
        ⟨some "u", some "50", none, none, some "m"⟩).body ≠
      (tenantHandler
        (fun data rc _ _ =>
          some (data ++ [(match rc with | some c => c.targetWidth.toNat | none => 0)]))
        ⟨fun _ => some [9], fun _ => true, true, true, 0⟩ ⟨[], []⟩
        ⟨some "u", some "100", none, none, some "m"⟩).body := by
  decide

/-- Claim C1, amended: in tenant mode, a second request for the same source
URL with a different width derives a different file name (the width is part
of the fingerprint), misses the exact-file-name lookup — the only lookup the
code performs — and re-fetches the source; the metadata index is never read,
so no URL-based fallback serves the first request's stored result. -/
theorem claimC1_no_url_fallback
    (tf : Bytes → Option ResizeCall → JsVal → String → Option Bytes)
    (w : TWorld) (url mid w1 w2 : String) (q f : Option String) (d p1 : Bytes)
    (hne : url ≠ "") (hmne : mid ≠ "") (hv : w.urlValid url = true)
    (hw12 : w1 ≠ w2) (hf : w.fetch url = some d)
    (htf1 : tf d (part002ResizeCall (some w1))
        (clampJs (part002ParsedQuality q)) (tFmt ⟨some url, some w1, q, f, some mid⟩) =
      some p1)
    (hwr : w.imageWriteOk = true) :
    (tenantHandler tf w ⟨[], []⟩ ⟨some url, some w1, q, f, some mid⟩).fetched = true ∧
    (tenantHandler tf w
        (tenantHandler tf w ⟨[], []⟩ ⟨some url, some w1, q, f, some mid⟩).state
        ⟨some url, some w2, q, f, some mid⟩).fetched = true := by
  have hfp : tenantFilePath ⟨some url, some w1, q, f, some mid⟩ url mid ≠
      tenantFilePath ⟨some url, some w2, q, f, some mid⟩ url mid := by
    intro he
    have hfn := strAppendCancelLeft (u := merchantDirOf mid ++ "/") he
    have hws := generateFileName_width_inj hfn
    simp only [jsTemplateOpt] at hws
    exact hw12 hws
  have e1 : tenantHandler tf w ⟨[], []⟩ ⟨some url, some w1, q, f, some mid⟩ =
      ⟨200, p1,
        ⟨[(tenantFilePath ⟨some url, some w1, q, f, some mid⟩ url mid, p1)],
          if w.metaWriteOk then
            saveMetadata [] (merchantDirOf mid)
              (generateFileName url (some w1) q
                (tFmt ⟨some url, some w1, q, f, some mid⟩) mid)
              ⟨url, widthOrOriginal (some w1), part002ParsedQuality q,
                tFmt ⟨some url, some w1, q, f, some mid⟩, mid, w.now⟩
          else []⟩, true⟩ := by
    simp only [tenantHandler]
    rw [if_neg (by simp [hne, hmne])]
    rw [if_neg (by simp [hv])]
    simp only [mapGet, hf, htf1, hwr]
    simp [mapSet]
  refine ⟨by rw [e1], ?_⟩
  rw [e1]
  simp only [tenantHandler]
  rw [if_neg (by simp [hne, hmne])]
  rw [if_neg (by simp [hv])]
  simp only [mapGet]
  rw [if_neg hfp]
  simp only [hf]
  rcases htf2 : tf d (part002ResizeCall (some w2))
      (clampJs (part002ParsedQuality q)) (tFmt ⟨some url, some w2, q, f, some mid⟩) with
    _ | p2
  · simp [htf2]
  · simp only [htf2]
    rcases hwr2 : w.imageWriteOk <;> simp

/-- Witness for `claimC1_no_url_fallback` at concrete widths 100 and 50. -/
theorem claimC1_no_url_fallback_witness :
    (tenantHandler (fun data _ _ _ => some data)
        ⟨fun _ => some [9], fun _ => true, true, true, 0⟩ ⟨[], []⟩
        ⟨some "u", some "100", none, none, some "m"⟩).fetched = true ∧
    (tenantHandler (fun data _ _ _ => some data)
        ⟨fun _ => some [9], fun _ => true, true, true, 0⟩
        (tenantHandler (fun data _ _ _ => some data)
          ⟨fun _ => some [9], fun _ => true, true, true, 0⟩ ⟨[], []⟩
          ⟨some "u", some "100", none, none, some "m"⟩).state
        ⟨some "u", some "50", none, none, some "m"⟩).fetched = true :=
  claimC1_no_url_fallback (fun data _ _ _ => some data)
    ⟨fun _ => some [9], fun _ => true, true, true, 0⟩ "u" "m" "100" "50" none none
    [9] [9] (by decide) (by decide) rfl (by decide) rfl rfl rfl

end NodeImage
